import Mathlib

/-!
Verification development for `sample/edit_fencing.py` of the
motion-diffusion-model repository.  The script's own logic (argument
handling, inpainting-mask construction, the repetition loop around
`diffusion.p_sample_loop`, output-path assembly, the save and
visualization steps) is embedded as executable Lean definitions, and the
specification claims are settled as theorems about those definitions.
-/

set_option maxHeartbeats 1000000

/-! ### String utilities mirroring Python string/`os.path` operations -/

/-- Python substring test `pat in s` on character lists. -/
def hasSub (pat : List Char) : List Char → Bool
  | [] => pat.isEmpty
  | c :: rest => pat.isPrefixOf (c :: rest) || hasSub pat rest

/-- Worker for Python `str.replace`: scans the character list left to
right, replacing each (non-overlapping) occurrence of the pattern
`p :: ps` by `rep`. -/
def replaceGo (p : Char) (ps rep : List Char) : Nat → List Char → List Char
  | _, [] => []
  | 0, l => l
  | fuel + 1, c :: rest =>
    if (p :: ps).isPrefixOf (c :: rest) then
      rep ++ replaceGo p ps rep fuel (rest.drop ps.length)
    else
      c :: replaceGo p ps rep fuel rest

/-- Python `s.replace(pat, rep)`.  The fuel argument of `replaceGo` is
instantiated with the length of the scanned list, of which each step
consumes at least one element, so the fuel never runs out.  (The
empty-pattern case never arises in the embedded script, whose patterns
are all non-empty literals.) -/
def pyReplace (s pat rep : String) : String :=
  match pat.data with
  | [] => s
  | p :: ps => String.mk (replaceGo p ps rep.data s.data.length s.data)

/-- Does the string start with a slash (Python `b.startswith('/')`)? -/
def startsWithSlash (s : String) : Bool := s.data.head? == some '/'

/-- Does the string end with a slash (Python `a.endswith('/')`)? -/
def endsWithSlash (s : String) : Bool := s.data.getLast? == some '/'

/-- `posixpath.join(a, b)` for a single relative or absolute component. -/
def pathJoin (a b : String) : String :=
  if startsWithSlash b then b
  else if a = "" ∨ endsWithSlash a then a ++ b
  else a ++ "/" ++ b

/-- `posixpath.basename(p)`: everything after the last slash. -/
def pyBasename (p : String) : String :=
  String.mk ((p.data.reverse.takeWhile (fun c => c ≠ '/')).reverse)

/-- `posixpath.dirname(p)`: everything up to the last slash, with
trailing slashes stripped unless the head consists only of slashes. -/
def pyDirname (p : String) : String :=
  let head := (p.data.reverse.dropWhile (fun c => c ≠ '/')).reverse
  if head ≠ [] ∧ head.any (fun c => c ≠ '/') then
    String.mk ((head.reverse.dropWhile (fun c => c = '/')).reverse)
  else
    String.mk head

/-- Python `'{:02d}'.format(n)` for a natural number. -/
def fmt2 (n : Nat) : String := if n < 10 then "0" ++ toString n else toString n

lemma strData_append (a b : String) : (a ++ b).data = a.data ++ b.data := by
  cases a; cases b; rfl

lemma strMk_data (s : String) : String.mk s.data = s := by
  cases s; rfl

lemma strMk_inj {a b : List Char} (h : String.mk a = String.mk b) : a = b := by
  injection h

lemma strAppend_assoc (a b c : String) : a ++ b ++ c = a ++ (b ++ c) := by
  cases a; cases b; cases c
  show String.mk _ = String.mk _
  simp [String.append]

lemma strAppend_empty (a : String) : a ++ "" = a := by
  cases a
  show String.mk _ = String.mk _
  simp [String.append]

lemma strAppend_cancel_left {a b c : String} (h : a ++ b = a ++ c) : b = c := by
  cases a; cases b; cases c
  have h2 := strMk_inj (by simpa [String.append] using h)
  simp at h2
  simp [h2]

/-- The character list of the literal pattern `.npy`. -/
def npyChars : List Char := ['.', 'n', 'p', 'y']

lemma npy_not_prefix_mid (c : Char) (s : List Char)
    (h : npyChars.isPrefixOf (c :: s) = false) :
    npyChars.isPrefixOf (c :: (s ++ npyChars)) = false := by
  have h' : ¬ (npyChars <+: (c :: s)) := by
    rw [← List.isPrefixOf_iff_prefix, h]
    simp
  by_contra hc
  rw [Bool.not_eq_false, List.isPrefixOf_iff_prefix] at hc
  rcases s with _ | ⟨a, _ | ⟨b, _ | ⟨d, t⟩⟩⟩
  · simp only [npyChars, List.nil_append, List.cons_prefix_cons] at hc
    exact absurd hc.2.1 (by decide)
  · simp only [npyChars, List.cons_append, List.nil_append,
      List.cons_prefix_cons] at hc
    exact absurd hc.2.2.1 (by decide)
  · simp only [npyChars, List.cons_append, List.nil_append,
      List.cons_prefix_cons] at hc
    exact absurd hc.2.2.2.1 (by decide)
  · simp only [npyChars, List.cons_append, List.cons_prefix_cons] at hc
    exact h' (by
      obtain ⟨h1, h2, h3, h4, _⟩ := hc
      simp only [npyChars, List.cons_prefix_cons]
      exact ⟨h1, h2, h3, h4, List.nil_prefix⟩)

lemma replaceGo_npy (rep : List Char) :
    ∀ s : List Char, ∀ fuel : Nat, s.length + npyChars.length ≤ fuel →
      hasSub npyChars s = false →
      replaceGo '.' ['n', 'p', 'y'] rep fuel (s ++ npyChars) = s ++ rep := by
  intro s
  induction s with
  | nil =>
    intro fuel hf _
    obtain ⟨f, rfl⟩ : ∃ f, fuel = f + 1 := ⟨fuel - 1, by simp [npyChars] at hf; omega⟩
    simp [npyChars, replaceGo, List.isPrefixOf]
  | cons c s' ih =>
    intro fuel hf h
    obtain ⟨f, rfl⟩ : ∃ f, fuel = f + 1 := ⟨fuel - 1, by simp [npyChars] at hf; omega⟩
    have h' : npyChars.isPrefixOf (c :: s') = false ∧ hasSub npyChars s' = false := by
      simpa [hasSub] using h
    have hrec := ih f (by simp [npyChars] at hf ⊢; omega) h'.2
    have hcond : (('.' :: ['n', 'p', 'y'] : List Char).isPrefixOf
        (c :: (s' ++ npyChars))) = false := npy_not_prefix_mid c s' h'.1
    show replaceGo '.' ['n', 'p', 'y'] rep (f + 1) ((c :: s') ++ npyChars) = (c :: s') ++ rep
    rw [List.cons_append, List.cons_append]
    simp only [replaceGo]
    rw [if_neg (by simp only [hcond]; simp)]
    show c :: replaceGo '.' ['n', 'p', 'y'] rep f (s' ++ npyChars) = c :: (s' ++ rep)
    rw [hrec]

lemma pyReplace_npy (s rep : String) (h : hasSub npyChars s.data = false) :
    pyReplace (s ++ String.mk npyChars) ".npy" rep = s ++ rep := by
  show String.mk (replaceGo '.' ['n', 'p', 'y'] rep.data
    (s ++ String.mk npyChars).data.length (s ++ String.mk npyChars).data) = s ++ rep
  rw [strData_append]
  have hnpy : (String.mk npyChars).data = npyChars := rfl
  rw [hnpy]
  rw [replaceGo_npy rep.data s.data ((s.data ++ npyChars).length) (by simp [npyChars]) h]
  rw [← strData_append, strMk_data]

lemma pathJoin_snd_append (out a b : String)
    (ha : startsWithSlash a = false) (hab : startsWithSlash (a ++ b) = false) :
    pathJoin out (a ++ b) = pathJoin out a ++ b := by
  by_cases hc : out = "" ∨ endsWithSlash out = true
  · simp [pathJoin, hab, ha, hc, strAppend_assoc]
  · simp [pathJoin, hab, ha, hc, strAppend_assoc]

lemma pathJoin_under (out a : String) (ha : startsWithSlash a = false)
    (hout : out ≠ "") (hsl : endsWithSlash out = false) :
    pathJoin out a = out ++ "/" ++ a := by
  simp [pathJoin, ha, hout, hsl]

/-! ### Inpainting-mask construction (`main`, lines 88-114)

A boolean tensor of shape `(batch, njoints, nfeats, max_frames)` is
represented as a total function on its four indices; the physical tensor
corresponds to the restriction to in-range indices.  The dictionary
`gt_frames_per_sample` is represented as a partial map `Nat → Option (List Nat)`. -/

/-- Boolean 4-d tensor, indexed `(sample, joint, feature, frame)`. -/
def Mask : Type := Nat → Nat → Nat → Nat → Bool

/-- The `gt_frames_per_sample` dictionary. -/
def Gt : Type := Nat → Option (List Nat)

/-- `torch.ones_like(input_motions, dtype=torch.bool)`. -/
def onesMask : Mask := fun _ _ _ _ => true

/-- The slice assignment `mask[i, :, :, lo:hi] = v`. -/
def sliceFrames (m : Mask) (i lo hi : Nat) (v : Bool) : Mask :=
  fun a b c d => if a = i ∧ lo ≤ d ∧ d < hi then v else m a b c d

/-- Dictionary entry assignment `gt_frames_per_sample[i] = v`. -/
def setGt (g : Gt) (i : Nat) (v : List Nat) : Gt :=
  fun j => if j = i then some v else g j

/-- Python `int()` applied to an exact rational (float arithmetic is
modelled exactly by rational arithmetic): truncation toward zero, which
on a rational is T-division of the numerator by the denominator. -/
def pyInt (q : ℚ) : Int := Int.tdiv q.num (q.den : Int)

/-- `int(args.prefix_end * length)` as a frame index. -/
def startIdx (pe : ℚ) (L : Nat) : Nat := (pyInt (pe * (L : ℚ))).toNat

/-- `int(args.suffix_start * length)` as a frame index. -/
def endIdx (ss : ℚ) (L : Nat) : Nat := (pyInt (ss * (L : ℚ))).toNat

/-- The `in_between` loop over `enumerate(model_kwargs['y']['lengths'])`
(lines 93-99): for sample `i` of length `L` it records
`list(range(0, start_idx)) + list(range(end_idx, max_frames))` in
`gt_frames_per_sample[i]` and assigns
`mask[i, :, :, start_idx:end_idx] = False`.  (Faithful to the Python
slice semantics for the non-negative `prefix_end`/`suffix_start`
arguments the script is run with.) -/
def applyInBetween (pe ss : ℚ) (maxFrames : Nat) : Nat → List Nat → Mask × Gt → Mask × Gt
  | _, [], mg => mg
  | i, L :: rest, mg =>
    applyInBetween pe ss maxFrames (i + 1) rest
      (sliceFrames mg.1 i (startIdx pe L) (endIdx ss L) false,
       setGt mg.2 i (List.range (startIdx pe L) ++ (List.range maxFrames).drop (endIdx ss L)))

/-- The `upper_body` mask (lines 100-104): the HML lower-body feature
mask, viewed as a boolean vector over the joints axis, after
`.unsqueeze(0).unsqueeze(-1).unsqueeze(-1).repeat(B, 1, F, T)`, i.e.
broadcast over the batch, feature and frame axes.  The vector
`HML_LOWER_BODY_MASK` itself comes from `data_loaders.humanml_utils`
(outside this fragment) and is kept as an abstract parameter. -/
def upperBodyMask (hml : Nat → Bool) : Mask := fun _ j _ _ => hml j

/-- The two values admitted for `--edit_mode` by the argument parser. -/
inductive EditMode where
  | in_between : EditMode
  | upper_body : EditMode
deriving DecidableEq

/-- Lines 90-104: the edit-mode dispatch that builds the inpainting mask
and `gt_frames_per_sample` (starting from the all-true mask for
`in_between`, and from the broadcast lower-body mask for `upper_body`). -/
def branchMask (mode : EditMode) (hml : Nat → Bool) (pe ss : ℚ)
    (lengths : List Nat) (maxFrames : Nat) : Mask × Gt :=
  match mode with
  | .in_between => applyInBetween pe ss maxFrames 0 lengths (onesMask, fun _ => none)
  | .upper_body => (upperBodyMask hml, fun _ => none)

/-- The row assignment `mask[i, :, :, :] = mask_t` where `mask_t` is the
1-d boolean file mask of length `max_frames`, broadcast over the joint
and feature axes. -/
def setRowMask (m : Mask) (i : Nat) (fm : List Bool) : Mask :=
  fun a b c d => if a = i ∧ d < fm.length then fm.getD d false else m a b c d

/-- `mask_np.nonzero()[0].tolist()` for a 1-d boolean array. -/
def nonzeroIdx (fm : List Bool) : List Nat :=
  (List.range fm.length).filter (fun t => fm.getD t false)

/-- The file-mask loop (lines 112-114): for every sample `i` the mask row
is overwritten with the file mask and `gt_frames_per_sample[i]` is set to
the nonzero indices of the file mask. -/
def assignFileMask (fm : List Bool) : Nat → List Nat → Mask × Gt → Mask × Gt
  | _, [], mg => mg
  | i, _ :: rest, mg =>
    assignFileMask fm (i + 1) rest (setRowMask mg.1 i fm, setGt mg.2 i (nonzeroIdx fm))

/-- A loaded 1-d-or-not numpy boolean array: its shape tuple and its
flattened data. -/
structure NpMask where
  shape : List Nat
  data : List Bool
deriving DecidableEq

/-- Lines 106-114: `if args.mask_path:` — when the mask path is a
non-empty string, load the mask, assert its shape is `(max_frames,)`
(an `AssertionError` is modelled as `Except.error`), and overwrite the
mask row of every sample. -/
def maskStep (maskPath : String) (arr : NpMask) (maxFrames : Nat)
    (lengths : List Nat) (mg : Mask × Gt) : Except String (Mask × Gt) :=
  if maskPath ≠ "" then
    if arr.shape = [maxFrames] then
      Except.ok (assignFileMask arr.data 0 lengths mg)
    else
      Except.error "Mask shape does not match input frames"
  else
    Except.ok mg

/-- The inpainting-mask pipeline of lines 90-114: edit-mode branch mask,
then the optional file-mask overwrite. -/
def inpaintingPipeline (maskPath : String) (arr : NpMask) (mode : EditMode)
    (hml : Nat → Bool) (pe ss : ℚ) (lengths : List Nat) (maxFrames : Nat) :
    Except String (Mask × Gt) :=
  maskStep maskPath arr maxFrames lengths (branchMask mode hml pe ss lengths maxFrames)

lemma applyInBetween_fst_lt (pe ss : ℚ) (T : Nat) :
    ∀ (rest : List Nat) (i0 : Nat) (mg : Mask × Gt) (a b c d : Nat), a < i0 →
      (applyInBetween pe ss T i0 rest mg).1 a b c d = mg.1 a b c d := by
  intro rest
  induction rest with
  | nil => intro i0 mg a b c d _; rfl
  | cons L rest ih =>
    intro i0 mg a b c d ha
    show (applyInBetween pe ss T (i0 + 1) rest
      (sliceFrames mg.1 i0 (startIdx pe L) (endIdx ss L) false,
       setGt mg.2 i0 (List.range (startIdx pe L) ++
         (List.range T).drop (endIdx ss L)))).1 a b c d = mg.1 a b c d
    rw [ih (i0 + 1) _ a b c d (by omega)]
    exact if_neg (fun hcon => by omega)

lemma applyInBetween_fst_get (pe ss : ℚ) (T : Nat) :
    ∀ (rest : List Nat) (i0 : Nat) (mg : Mask × Gt) (idx : Nat),
      idx < rest.length → ∀ (b c d : Nat),
      (applyInBetween pe ss T i0 rest mg).1 (i0 + idx) b c d =
        if startIdx pe (rest.getD idx 0) ≤ d ∧ d < endIdx ss (rest.getD idx 0)
        then false else mg.1 (i0 + idx) b c d := by
  intro rest
  induction rest with
  | nil => intro i0 mg idx h; exact absurd h (by simp)
  | cons L rest ih =>
    intro i0 mg idx h b c d
    cases idx with
    | zero =>
      show (applyInBetween pe ss T (i0 + 1) rest
        (sliceFrames mg.1 i0 (startIdx pe L) (endIdx ss L) false,
         setGt mg.2 i0 (List.range (startIdx pe L) ++
           (List.range T).drop (endIdx ss L)))).1 (i0 + 0) b c d =
        if startIdx pe L ≤ d ∧ d < endIdx ss L then false else mg.1 (i0 + 0) b c d
      rw [applyInBetween_fst_lt pe ss T rest (i0 + 1) _ (i0 + 0) b c d (by omega)]
      by_cases hc : startIdx pe L ≤ d ∧ d < endIdx ss L
      · rw [if_pos hc]
        show (if i0 + 0 = i0 ∧ startIdx pe L ≤ d ∧ d < endIdx ss L
          then false else mg.1 (i0 + 0) b c d) = false
        rw [if_pos ⟨by omega, hc⟩]
      · rw [if_neg hc]
        show (if i0 + 0 = i0 ∧ startIdx pe L ≤ d ∧ d < endIdx ss L
          then false else mg.1 (i0 + 0) b c d) = mg.1 (i0 + 0) b c d
        rw [if_neg (fun hcon => hc hcon.2)]
    | succ k =>
      show (applyInBetween pe ss T (i0 + 1) rest
        (sliceFrames mg.1 i0 (startIdx pe L) (endIdx ss L) false,
         setGt mg.2 i0 (List.range (startIdx pe L) ++
           (List.range T).drop (endIdx ss L)))).1 (i0 + (k + 1)) b c d =
        if startIdx pe (rest.getD k 0) ≤ d ∧ d < endIdx ss (rest.getD k 0)
        then false else mg.1 (i0 + (k + 1)) b c d
      have harith : i0 + (k + 1) = (i0 + 1) + k := by omega
      rw [harith]
      rw [ih (i0 + 1) _ k (by simpa using h) b c d]
      by_cases hc : startIdx pe (rest.getD k 0) ≤ d ∧ d < endIdx ss (rest.getD k 0)
      · rw [if_pos hc, if_pos hc]
      · rw [if_neg hc, if_neg hc]
        show (if (i0 + 1) + k = i0 ∧ startIdx pe L ≤ d ∧ d < endIdx ss L
          then false else mg.1 ((i0 + 1) + k) b c d) = mg.1 ((i0 + 1) + k) b c d
        rw [if_neg (fun hcon => by omega)]

lemma assignFileMask_fst_lt (fm : List Bool) :
    ∀ (rest : List Nat) (i0 : Nat) (mg : Mask × Gt) (a b c d : Nat), a < i0 →
      (assignFileMask fm i0 rest mg).1 a b c d = mg.1 a b c d := by
  intro rest
  induction rest with
  | nil => intro i0 mg a b c d _; rfl
  | cons L rest ih =>
    intro i0 mg a b c d ha
    show (assignFileMask fm (i0 + 1) rest
      (setRowMask mg.1 i0 fm, setGt mg.2 i0 (nonzeroIdx fm))).1 a b c d = mg.1 a b c d
    rw [ih (i0 + 1) _ a b c d (by omega)]
    exact if_neg (fun hcon => by omega)

lemma assignFileMask_snd_lt (fm : List Bool) :
    ∀ (rest : List Nat) (i0 : Nat) (mg : Mask × Gt) (a : Nat), a < i0 →
      (assignFileMask fm i0 rest mg).2 a = mg.2 a := by
  intro rest
  induction rest with
  | nil => intro i0 mg a _; rfl
  | cons L rest ih =>
    intro i0 mg a ha
    show (assignFileMask fm (i0 + 1) rest
      (setRowMask mg.1 i0 fm, setGt mg.2 i0 (nonzeroIdx fm))).2 a = mg.2 a
    rw [ih (i0 + 1) _ a (by omega)]
    exact if_neg (by omega)

lemma assignFileMask_fst_get (fm : List Bool) :
    ∀ (rest : List Nat) (i0 : Nat) (mg : Mask × Gt) (idx : Nat),
      idx < rest.length → ∀ (b c d : Nat),
      (assignFileMask fm i0 rest mg).1 (i0 + idx) b c d =
        if d < fm.length then fm.getD d false else mg.1 (i0 + idx) b c d := by
  intro rest
  induction rest with
  | nil => intro i0 mg idx h; exact absurd h (by simp)
  | cons L rest ih =>
    intro i0 mg idx h b c d
    cases idx with
    | zero =>
      show (assignFileMask fm (i0 + 1) rest
        (setRowMask mg.1 i0 fm, setGt mg.2 i0 (nonzeroIdx fm))).1 (i0 + 0) b c d =
        if d < fm.length then fm.getD d false else mg.1 (i0 + 0) b c d
      rw [assignFileMask_fst_lt fm rest (i0 + 1) _ (i0 + 0) b c d (by omega)]
      by_cases hc : d < fm.length
      · rw [if_pos hc]
        show (if i0 + 0 = i0 ∧ d < fm.length then fm.getD d false
          else mg.1 (i0 + 0) b c d) = fm.getD d false
        rw [if_pos ⟨by omega, hc⟩]
      · rw [if_neg hc]
        show (if i0 + 0 = i0 ∧ d < fm.length then fm.getD d false
          else mg.1 (i0 + 0) b c d) = mg.1 (i0 + 0) b c d
        rw [if_neg (fun hcon => hc hcon.2)]
    | succ k =>
      show (assignFileMask fm (i0 + 1) rest
        (setRowMask mg.1 i0 fm, setGt mg.2 i0 (nonzeroIdx fm))).1 (i0 + (k + 1)) b c d =
        if d < fm.length then fm.getD d false else mg.1 (i0 + (k + 1)) b c d
      have harith : i0 + (k + 1) = (i0 + 1) + k := by omega
      rw [harith]
      rw [ih (i0 + 1) _ k (by simpa using h) b c d]
      by_cases hc : d < fm.length
      · rw [if_pos hc, if_pos hc]
      · rw [if_neg hc, if_neg hc]
        show (if (i0 + 1) + k = i0 ∧ d < fm.length then fm.getD d false
          else mg.1 ((i0 + 1) + k) b c d) = mg.1 ((i0 + 1) + k) b c d
        rw [if_neg (fun hcon => by omega)]

lemma assignFileMask_snd_get (fm : List Bool) :
    ∀ (rest : List Nat) (i0 : Nat) (mg : Mask × Gt) (idx : Nat),
      idx < rest.length →
      (assignFileMask fm i0 rest mg).2 (i0 + idx) = some (nonzeroIdx fm) := by
  intro rest
  induction rest with
  | nil => intro i0 mg idx h; exact absurd h (by simp)
  | cons L rest ih =>
    intro i0 mg idx h
    cases idx with
    | zero =>
      show (assignFileMask fm (i0 + 1) rest
        (setRowMask mg.1 i0 fm, setGt mg.2 i0 (nonzeroIdx fm))).2 (i0 + 0) = _
      rw [assignFileMask_snd_lt fm rest (i0 + 1) _ (i0 + 0) (by omega)]
      show setGt mg.2 i0 (nonzeroIdx fm) (i0 + 0) = _
      rw [setGt, if_pos (by omega)]
    | succ k =>
      show (assignFileMask fm (i0 + 1) rest
        (setRowMask mg.1 i0 fm, setGt mg.2 i0 (nonzeroIdx fm))).2 (i0 + (k + 1)) = _
      have harith : i0 + (k + 1) = (i0 + 1) + k := by omega
      rw [harith]
      exact ih (i0 + 1) _ k (by simpa using h)

/-- C1: the inpainting mask is constructed according to the edit mode.
For `in_between` the mask starts all-true and, for every sample `i` of
length `L`, is false exactly on frames
`int(prefix_end * L) .. int(suffix_start * L) - 1`; for `upper_body` it
is the HML lower-body feature mask broadcast over the batch, feature and
frame dimensions.  (`prefix_end` and `suffix_start` are taken
non-negative, matching the fractional arguments the script is run with.) -/
theorem c1_mask_by_edit_mode (hml : Nat → Bool) (pe ss : ℚ)
    (hpe : 0 ≤ pe) (hss : 0 ≤ ss) (lengths : List Nat) (T : Nat) :
    (∀ i, i < lengths.length → ∀ j k t,
      ((branchMask EditMode.in_between hml pe ss lengths T).1 i j k t = false ↔
        startIdx pe (lengths.getD i 0) ≤ t ∧ t < endIdx ss (lengths.getD i 0)))
    ∧ (∀ i j k t,
      (branchMask EditMode.upper_body hml pe ss lengths T).1 i j k t = hml j) := by
  constructor
  · intro i hi j k t
    show ((applyInBetween pe ss T 0 lengths (onesMask, fun _ => none)).1 i j k t
      = false ↔ _)
    have hch := applyInBetween_fst_get pe ss T lengths 0
      (onesMask, fun _ => none) i hi j k t
    rw [Nat.zero_add] at hch
    rw [hch]
    by_cases hc : startIdx pe (lengths.getD i 0) ≤ t ∧ t < endIdx ss (lengths.getD i 0)
    · rw [if_pos hc]
      exact iff_of_true rfl hc
    · rw [if_neg hc]
      exact iff_of_false (by simp [onesMask]) hc
  · intro i j k t
    rfl

/-- Closed witness for C1 at `prefix_end = 1/4`, `suffix_start = 3/4`,
one sample of length 8, 10 frames: frame 3 of sample 0 is inpainted
(mask false, since `int(0.25*8) = 2 ≤ 3 < 6 = int(0.75*8)`), and the
`upper_body` mask at joint feature 1 equals the lower-body vector there. -/
theorem c1_mask_by_edit_mode_witness :
    (branchMask EditMode.in_between (fun j => decide (j = 1)) (1/4) (3/4) [8] 10).1 0 5 0 3
      = false ∧
    (branchMask EditMode.upper_body (fun j => decide (j = 1)) (1/4) (3/4) [8] 10).1 0 1 0 3
      = true := by
  constructor
  · exact ((c1_mask_by_edit_mode (fun j => decide (j = 1)) (1/4) (3/4)
      (by norm_num) (by norm_num) [8] 10).1 0 (by decide) 5 0 3).mpr
      (by norm_num [startIdx, endIdx, pyInt])
  · exact ((c1_mask_by_edit_mode (fun j => decide (j = 1)) (1/4) (3/4)
      (by norm_num) (by norm_num) [8] 10).2 0 1 0 3).trans (by decide)

/-- C2: when `args.mask_path` is non-empty (and its shape assertion
passes), the final inpainting mask of every sample equals the file mask
broadcast over the joint and feature axes, `gt_frames_per_sample[i]` is
the list of nonzero indices of the file mask, and the edit mode has no
effect on the final mask. -/
theorem c2_file_mask_overrides (mode : EditMode) (hml : Nat → Bool) (pe ss : ℚ)
    (lengths : List Nat) (T : Nat) (maskPath : String) (arr : NpMask)
    (hp : maskPath ≠ "") (hshape : arr.shape = [T]) (hdata : arr.data.length = T) :
    ∃ m g, inpaintingPipeline maskPath arr mode hml pe ss lengths T = Except.ok (m, g) ∧
      (∀ i, i < lengths.length → ∀ j k t, t < T → m i j k t = arr.data.getD t false) ∧
      (∀ i, i < lengths.length → g i = some (nonzeroIdx arr.data)) ∧
      (∀ mode2 : EditMode, ∃ m2 g2,
        inpaintingPipeline maskPath arr mode2 hml pe ss lengths T = Except.ok (m2, g2) ∧
        ∀ i, i < lengths.length → ∀ j k t, t < T → m2 i j k t = m i j k t) := by
  have happ : ∀ md : EditMode, ∀ i, i < lengths.length → ∀ j k t, t < T →
      (assignFileMask arr.data 0 lengths (branchMask md hml pe ss lengths T)).1 i j k t
        = arr.data.getD t false := by
    intro md i hi j k t ht
    have hch := assignFileMask_fst_get arr.data lengths 0
      (branchMask md hml pe ss lengths T) i hi j k t
    rw [Nat.zero_add] at hch
    rw [hch, if_pos (by omega)]
  have hpipe : ∀ md : EditMode, inpaintingPipeline maskPath arr md hml pe ss lengths T
      = Except.ok (assignFileMask arr.data 0 lengths (branchMask md hml pe ss lengths T)) := by
    intro md
    simp [inpaintingPipeline, maskStep, hp, hshape]
  refine ⟨(assignFileMask arr.data 0 lengths (branchMask mode hml pe ss lengths T)).1,
    (assignFileMask arr.data 0 lengths (branchMask mode hml pe ss lengths T)).2,
    by rw [hpipe mode], happ mode, ?_, ?_⟩
  · intro i hi
    have hch := assignFileMask_snd_get arr.data lengths 0
      (branchMask mode hml pe ss lengths T) i hi
    rw [Nat.zero_add] at hch
    exact hch
  · intro mode2
    refine ⟨(assignFileMask arr.data 0 lengths (branchMask mode2 hml pe ss lengths T)).1,
      (assignFileMask arr.data 0 lengths (branchMask mode2 hml pe ss lengths T)).2,
      by rw [hpipe mode2], ?_⟩
    intro i hi j k t ht
    rw [happ mode2 i hi j k t ht, happ mode i hi j k t ht]

/-- Closed witness for C2: one sample of length 2, 3 frames, file mask
`[true, false, true]`. -/
theorem c2_file_mask_overrides_witness :
    ∃ m g, inpaintingPipeline "mask.npy" ⟨[3], [true, false, true]⟩
        EditMode.in_between (fun _ => false) 0 0 [2] 3 = Except.ok (m, g) ∧
      (∀ i, i < ([2] : List Nat).length → ∀ j k t, t < 3 →
        m i j k t = [true, false, true].getD t false) ∧
      (∀ i, i < ([2] : List Nat).length → g i = some (nonzeroIdx [true, false, true])) ∧
      (∀ mode2 : EditMode, ∃ m2 g2,
        inpaintingPipeline "mask.npy" ⟨[3], [true, false, true]⟩
          mode2 (fun _ => false) 0 0 [2] 3 = Except.ok (m2, g2) ∧
        ∀ i, i < ([2] : List Nat).length → ∀ j k t, t < 3 → m2 i j k t = m i j k t) :=
  c2_file_mask_overrides EditMode.in_between (fun _ => false) 0 0 [2] 3
    "mask.npy" ⟨[3], [true, false, true]⟩ (by decide) (by decide) (by decide)

/-- C3: for a non-empty mask path, the load step fails with an assertion
error if and only if the loaded array's shape is not exactly
`(max_frames,)`; when the shape matches, execution proceeds and the mask
is applied to every sample. -/
theorem c3_mask_shape_assertion (maskPath : String) (hp : maskPath ≠ "")
    (arr : NpMask) (T : Nat) (lengths : List Nat) (mg : Mask × Gt) :
    ((∃ e, maskStep maskPath arr T lengths mg = Except.error e) ↔ arr.shape ≠ [T]) ∧
    (arr.shape = [T] →
      ∃ m g, maskStep maskPath arr T lengths mg = Except.ok (m, g) ∧
        ∀ i, i < lengths.length → ∀ j k t, t < arr.data.length →
          m i j k t = arr.data.getD t false) := by
  constructor
  · by_cases hs : arr.shape = [T]
    · simp [maskStep, hp, hs]
    · simp [maskStep, hp, hs]
  · intro hs
    refine ⟨(assignFileMask arr.data 0 lengths mg).1,
      (assignFileMask arr.data 0 lengths mg).2, by simp [maskStep, hp, hs], ?_⟩
    intro i hi j k t ht
    have hch := assignFileMask_fst_get arr.data lengths 0 mg i hi j k t
    rw [Nat.zero_add] at hch
    rw [hch, if_pos ht]

/-- Closed witness for C3: a shape-(2,2) mask against 4 input frames is
rejected, and a shape-(4,) mask is accepted and applied. -/
theorem c3_mask_shape_assertion_witness :
    ((∃ e, maskStep "m.npy" ⟨[2, 2], [true, true, false, false]⟩ 4 [4]
        (onesMask, fun _ => none) = Except.error e) ↔
      ([2, 2] : List Nat) ≠ [4]) ∧
    (∃ m g, maskStep "m.npy" ⟨[4], [true, true, false, false]⟩ 4 [4]
        (onesMask, fun _ => none) = Except.ok (m, g) ∧
      ∀ i, i < ([4] : List Nat).length → ∀ j k t,
        t < ([true, true, false, false] : List Bool).length →
        m i j k t = [true, true, false, false].getD t false) :=
  ⟨(c3_mask_shape_assertion "m.npy" (by decide) ⟨[2, 2], [true, true, false, false]⟩
      4 [4] (onesMask, fun _ => none)).1,
   (c3_mask_shape_assertion "m.npy" (by decide) ⟨[4], [true, true, false, false]⟩
      4 [4] (onesMask, fun _ => none)).2 (by decide)⟩

/-! ### The repetition loop around `diffusion.p_sample_loop` (lines 120-139) -/

/-- Argument record of one `diffusion.p_sample_loop` invocation: the
output shape tuple and the keyword arguments the script passes.  The
(black-box) model and diffusion objects are not part of the record. -/
structure PSampleLoopCall where
  batch : Nat
  njoints : Nat
  nfeats : Nat
  frames : Nat
  clipDenoised : Bool
  skipTimesteps : Nat
  initImage : Option Unit
  progress : Bool
  dumpSteps : Option Unit
  noise : Option Unit
  constNoise : Bool
deriving DecidableEq

/-- The arguments of the `sample_fn(...)` call in the loop body. -/
def mkPSampleLoopCall (bs nj nf T : Nat) : PSampleLoopCall :=
  { batch := bs, njoints := nj, nfeats := nf, frames := T,
    clipDenoised := false, skipTimesteps := 0, initImage := none,
    progress := true, dumpSteps := none, noise := none, constNoise := false }

/-- `for rep_i in range(args.num_repetitions)`: the list of
`p_sample_loop` invocations the loop performs, in order. -/
def repetitionCalls : Nat → Nat → Nat → Nat → Nat → List PSampleLoopCall
  | 0, _, _, _, _ => []
  | n + 1, bs, nj, nf, T => repetitionCalls n bs nj nf T ++ [mkPSampleLoopCall bs nj nf T]

/-- `torch.ones(args.batch_size, device=...) * args.guidance_param`:
the CFG scale tensor added to the batch each iteration. -/
def scaleTensor (bs : Nat) (g : ℚ) : List ℚ := List.replicate bs g

lemma repetitionCalls_length (nr bs nj nf T : Nat) :
    (repetitionCalls nr bs nj nf T).length = nr := by
  induction nr with
  | zero => rfl
  | succ n ih =>
    show (repetitionCalls n bs nj nf T ++ [mkPSampleLoopCall bs nj nf T]).length = n + 1
    rw [List.length_append, ih]
    rfl

lemma repetitionCalls_mem (nr bs nj nf T : Nat) :
    ∀ c, c ∈ repetitionCalls nr bs nj nf T → c = mkPSampleLoopCall bs nj nf T := by
  induction nr with
  | zero => intro c hc; simp [repetitionCalls] at hc
  | succ n ih =>
    intro c hc
    rw [show repetitionCalls (n + 1) bs nj nf T
      = repetitionCalls n bs nj nf T ++ [mkPSampleLoopCall bs nj nf T] from rfl,
      List.mem_append] at hc
    rcases hc with hc | hc
    · exact ih c hc
    · rwa [List.mem_singleton] at hc

/-- C4: `diffusion.p_sample_loop` is invoked exactly
`args.num_repetitions` times, each time with output shape
`(args.batch_size, model.njoints, model.nfeats, max_frames)` and with
`skip_timesteps = 0`, `init_image = None`, `noise = None`,
`clip_denoised = False`. -/
theorem c4_sample_loop_calls (nr bs nj nf T : Nat) :
    (repetitionCalls nr bs nj nf T).length = nr ∧
    (∀ c, c ∈ repetitionCalls nr bs nj nf T →
      c.batch = bs ∧ c.njoints = nj ∧ c.nfeats = nf ∧ c.frames = T ∧
      c.skipTimesteps = 0 ∧ c.initImage = none ∧ c.noise = none ∧
      c.clipDenoised = false) := by
  refine ⟨repetitionCalls_length nr bs nj nf T, ?_⟩
  intro c hc
  rw [repetitionCalls_mem nr bs nj nf T c hc]
  exact ⟨rfl, rfl, rfl, rfl, rfl, rfl, rfl, rfl⟩

/-- Closed witness for C4 with 2 repetitions, batch 3, a 263 x 1 x 60
output shape. -/
theorem c4_sample_loop_calls_witness :
    (repetitionCalls 2 3 263 1 60).length = 2 ∧
    ((mkPSampleLoopCall 3 263 1 60).batch = 3 ∧
      (mkPSampleLoopCall 3 263 1 60).njoints = 263 ∧
      (mkPSampleLoopCall 3 263 1 60).nfeats = 1 ∧
      (mkPSampleLoopCall 3 263 1 60).frames = 60 ∧
      (mkPSampleLoopCall 3 263 1 60).skipTimesteps = 0 ∧
      (mkPSampleLoopCall 3 263 1 60).initImage = none ∧
      (mkPSampleLoopCall 3 263 1 60).noise = none ∧
      (mkPSampleLoopCall 3 263 1 60).clipDenoised = false) :=
  ⟨(c4_sample_loop_calls 2 3 263 1 60).1,
   (c4_sample_loop_calls 2 3 263 1 60).2 (mkPSampleLoopCall 3 263 1 60) (by decide)⟩

/-! ### The batch-size check (lines 55-61) and its later uses -/

/-- Lines 55-61: `assert args.num_samples <= args.batch_size` followed by
`args.batch_size = args.num_samples`; returns the batch size in effect
for the rest of the run, or the assertion message. -/
def checkAndSetBatch (numSamples batchSize : Nat) : Except String Nat :=
  if numSamples ≤ batchSize then Except.ok numSamples
  else Except.error "Please either increase batch_size or reduce num_samples"

/-- C9: under the precondition `num_samples <= batch_size` the assertion
never fires, the batch size is set to `num_samples`, and at the later
uses (the sampling shape of every `p_sample_loop` call, the CFG scale
tensor) the batch size equals `num_samples`. -/
theorem c9_batch_size_equals_num_samples (ns bs : Nat) (h : ns ≤ bs) :
    checkAndSetBatch ns bs = Except.ok ns ∧
    (∀ nr nj nf T, ∀ c, c ∈ repetitionCalls nr ns nj nf T → c.batch = ns) ∧
    (∀ g : ℚ, (scaleTensor ns g).length = ns) := by
  refine ⟨by simp [checkAndSetBatch, h], ?_, ?_⟩
  · intro nr nj nf T c hc
    rw [repetitionCalls_mem nr ns nj nf T c hc]
    rfl
  · intro g
    simp [scaleTensor]

/-- Closed witness for C9 at `num_samples = 3`, `batch_size = 64`. -/
theorem c9_batch_size_equals_num_samples_witness :
    checkAndSetBatch 3 64 = Except.ok 3 :=
  (c9_batch_size_equals_num_samples 3 64 (by decide)).1

/-! ### Output-path assembly (lines 38-52) -/

/-- `os.path.basename(args.model_path).replace('model', '').replace('.pt', '')`. -/
def niterOf (modelPath : String) : String :=
  pyReplace (pyReplace (pyBasename modelPath) "model" "") ".pt" ""

/-- `'edit_{}_{}_{}_seed{}'.format(name, niter, args.edit_mode, args.seed)`. -/
def editFolderName (name niter editMode : String) (seed : Nat) : String :=
  "edit_" ++ name ++ "_" ++ niter ++ "_" ++ editMode ++ "_seed" ++ toString seed

/-- `'_' + args.text_condition.replace(' ', '_').replace('.', '')`. -/
def textConditionTag (tc : String) : String :=
  "_" ++ pyReplace (pyReplace tc " " "_") "." ""

/-- Lines 38-52 as written in the source: `name` and `niter` are derived
from the model path, then the output path is assembled in one of two
branches depending on whether `args.output_dir` is empty, appending the
text-condition tag inside each branch when the text condition is
non-empty. -/
def outPathOf (outputDir modelPath editMode : String) (seed : Nat) (tc : String) : String :=
  let name := pyBasename (pyDirname modelPath)
  let niter := niterOf modelPath
  if outputDir = "" then
    let base := pathJoin (pyDirname modelPath) (editFolderName name niter editMode seed)
    if tc ≠ "" then base ++ textConditionTag tc else base
  else
    let base := pathJoin outputDir (editFolderName name niter editMode seed)
    if tc ≠ "" then base ++ textConditionTag tc else base

/-- The output path as described by the specification claim: the base
directory is `dirname(model_path)` when `args.output_dir` is empty and
`args.output_dir` otherwise; it is joined with
`'edit_{name}_{niter}_{edit_mode}_seed{seed}'` where `name` is the
basename of the model's parent directory and `niter` is the basename of
the model file with `'model'` and `'.pt'` removed; and if the text
condition is non-empty, an underscore plus the text condition with
spaces replaced by underscores and periods removed is appended. -/
def outPathSpec (outputDir modelPath editMode : String) (seed : Nat) (tc : String) : String :=
  pathJoin (if outputDir = "" then pyDirname modelPath else outputDir)
    (editFolderName (pyBasename (pyDirname modelPath)) (niterOf modelPath) editMode seed)
  ++ (if tc ≠ "" then textConditionTag tc else "")

/-- C6: the output path assembled by the script coincides with the
specification's description for every argument combination. -/
theorem c6_out_path (outputDir modelPath editMode : String) (seed : Nat) (tc : String) :
    outPathOf outputDir modelPath editMode seed tc
      = outPathSpec outputDir modelPath editMode seed tc := by
  by_cases ho : outputDir = ""
  · by_cases ht : tc = ""
    · simp [outPathOf, outPathSpec, ho, ht, strAppend_empty]
    · simp [outPathOf, outPathSpec, ho, ht]
  · by_cases ht : tc = ""
    · simp [outPathOf, outPathSpec, ho, ht, strAppend_empty]
    · simp [outPathOf, outPathSpec, ho, ht]

/-! ### Conversion to joint positions (lines 142-147 and 178-182)

The conversion is tracked at the level of tensor shapes (lists of
dimension sizes), which is what the claim speaks about. -/

/-- `.permute(0, 2, 3, 1)` on a 4-d shape. -/
def permute0231 (s : List Nat) : List Nat :=
  match s with
  | [a, b, c, d] => [a, c, d, b]
  | other => other

/-- Modelled from the spec: `inv_transform` (the dataset's normalization
inverse, imported from `data_loaders`, not part of this fragment) is
shape-preserving, so at shape level it is the identity. -/
def invTransformShape (s : List Nat) : List Nat := s

/-- Modelled from the spec: `recover_from_ric` (imported from
`data_loaders.humanml.scripts.motion_process`, not part of this
fragment) recovers XYZ joint positions from the RIC feature vector,
replacing the trailing feature axis by `(n_joints, 3)`. -/
def recoverFromRicShape (nJoints : Nat) (s : List Nat) : List Nat :=
  s.dropLast ++ [nJoints, 3]

/-- `.view(-1, *shape[2:])`: collapse the first two axes. -/
def viewFlatShape (s : List Nat) : List Nat :=
  match s with
  | a :: b :: rest => (a * b) :: rest
  | other => other

/-- The conversion pipeline applied to a batch with a given `n_joints`:
`permute(0,2,3,1)`, `inv_transform`, `recover_from_ric`,
`view(-1, *shape[2:])`, `permute(0,2,3,1)`. -/
def hmlToJointsShape (nJoints : Nat) (s : List Nat) : List Nat :=
  permute0231 (viewFlatShape (recoverFromRicShape nJoints (invTransformShape (permute0231 s))))

/-- Lines 142-147: the conversion of a sampled batch, with
`n_joints = 22 if sample.shape[1] == 263 else 21`. -/
def sampleConvertShape (s : List Nat) : List Nat :=
  hmlToJointsShape (if s.getD 1 0 = 263 then 22 else 21) s

/-- Lines 178-182: the identical conversion applied to the input motions
before visualization, reusing the `n_joints` computed in the loop. -/
def inputConvertShape (nJoints : Nat) (s : List Nat) : List Nat :=
  hmlToJointsShape nJoints s

/-- C7: under the `hml_vec` data representation a sampled batch of shape
`(bs, 263, 1, T)` is converted with `n_joints = 22` to joint positions
of shape `(bs, 22, 3, T)`; for any other feature dimension `n_joints = 21`
is used, giving `(bs, 21, 3, T)`; and the conversion applied to the
input motions is the same conversion. -/
theorem c7_hml_vec_conversion (bs T : Nat) :
    sampleConvertShape [bs, 263, 1, T] = [bs, 22, 3, T] ∧
    (∀ d, d ≠ 263 → sampleConvertShape [bs, d, 1, T] = [bs, 21, 3, T]) ∧
    (∀ s : List Nat, inputConvertShape (if s.getD 1 0 = 263 then 22 else 21) s
      = sampleConvertShape s) := by
  refine ⟨?_, ?_, fun s => rfl⟩
  · show hmlToJointsShape 22 [bs, 263, 1, T] = [bs, 22, 3, T]
    show [bs * 1, 22, 3, T] = [bs, 22, 3, T]
    rw [Nat.mul_one]
  · intro d hd
    show hmlToJointsShape (if [bs, d, 1, T].getD 1 0 = 263 then 22 else 21) [bs, d, 1, T]
      = [bs, 21, 3, T]
    rw [show [bs, d, 1, T].getD 1 0 = d from rfl, if_neg hd]
    show [bs * 1, 21, 3, T] = [bs, 21, 3, T]
    rw [Nat.mul_one]

/-- Closed witness for C7 at batch 3, 60 frames, other feature dimension 251. -/
theorem c7_hml_vec_conversion_witness :
    sampleConvertShape [3, 263, 1, 60] = [3, 22, 3, 60] ∧
    sampleConvertShape [3, 251, 1, 60] = [3, 21, 3, 60] ∧
    inputConvertShape 22 [3, 263, 1, 60] = sampleConvertShape [3, 263, 1, 60] :=
  ⟨(c7_hml_vec_conversion 3 60).1,
   (c7_hml_vec_conversion 3 60).2.1 251 (by decide),
   (c7_hml_vec_conversion 3 60).2.2 [3, 263, 1, 60]⟩

/-! ### The save step (lines 156-173) -/

/-- Contents written to disk by the save step: the `results.npy` dict
(with its five keys) or a plain text file.  Motion data is abstract. -/
inductive FileData (μ : Type) where
  | npyDict (motion : List μ) (text : List String) (lengths : List Nat)
      (numSamples numReps : Nat) : FileData μ
  | textFile (content : String) : FileData μ

/-- Lines 156-173: truncate the accumulated motions, texts and lengths to
`num_samples * num_repetitions` entries, then write `results.npy` (a dict
with keys `motion`, `text`, `lengths`, `num_samples`, `num_repetitions`),
the texts joined by newlines to `npy_path.replace('.npy', '.txt')`, and
the lengths one per line to `npy_path.replace('.npy', '_len.txt')`. -/
def saveResults {μ : Type} (out : String) (allMotions : List μ)
    (allText : List String) (allLengths : List Nat) (ns nr : Nat) :
    List (String × FileData μ) :=
  let total := ns * nr
  let motions := allMotions.take total
  let texts := allText.take total
  let lens := allLengths.take total
  let npyPath := pathJoin out "results.npy"
  [(npyPath, FileData.npyDict motions texts lens ns nr),
   (pyReplace npyPath ".npy" ".txt", FileData.textFile (String.intercalate "\n" texts)),
   (pyReplace npyPath ".npy" "_len.txt",
    FileData.textFile (String.intercalate "\n" (lens.map toString)))]

lemma pathJoin_results_npy (out : String) :
    pathJoin out "results.npy" = pathJoin out "results" ++ ".npy" := by
  rw [show ("results.npy" : String) = "results" ++ ".npy" from by decide]
  exact pathJoin_snd_append out "results" ".npy" (by decide) (by decide)

lemma savePath_txt (out : String) (h : hasSub npyChars (pathJoin out "results").data = false) :
    pyReplace (pathJoin out "results.npy") ".npy" ".txt" = pathJoin out "results.txt" := by
  rw [pathJoin_results_npy]
  rw [show (pathJoin out "results" ++ ".npy")
    = pathJoin out "results" ++ String.mk npyChars from rfl]
  rw [pyReplace_npy _ _ h]
  rw [← pathJoin_snd_append out "results" ".txt" (by decide) (by decide)]
  rw [show ("results" : String) ++ ".txt" = "results.txt" from by decide]

lemma savePath_len (out : String) (h : hasSub npyChars (pathJoin out "results").data = false) :
    pyReplace (pathJoin out "results.npy") ".npy" "_len.txt"
      = pathJoin out "results_len.txt" := by
  rw [pathJoin_results_npy]
  rw [show (pathJoin out "results" ++ ".npy")
    = pathJoin out "results" ++ String.mk npyChars from rfl]
  rw [pyReplace_npy _ _ h]
  rw [← pathJoin_snd_append out "results" "_len.txt" (by decide) (by decide)]
  rw [show ("results" : String) ++ "_len.txt" = "results_len.txt" from by decide]

/-- C5: after the repetition loop the script writes exactly three data
files into the output directory: `results.npy` with the five-key dict
(motions, texts and lengths truncated to the first
`num_samples * num_repetitions` entries), `results.txt` with the texts
joined by newlines, and `results_len.txt` with the lengths one per line.
(The hypothesis records that the literal `.npy` does not occur inside
the directory part of the path, so Python's replace-all `str.replace`
only rewrites the file extension.) -/
theorem c5_three_result_files (μ : Type) (out : String) (mo : List μ)
    (tx : List String) (ln : List Nat) (ns nr : Nat)
    (h : hasSub npyChars (pathJoin out "results").data = false) :
    saveResults out mo tx ln ns nr =
      [(pathJoin out "results.npy",
        FileData.npyDict (mo.take (ns * nr)) (tx.take (ns * nr)) (ln.take (ns * nr)) ns nr),
       (pathJoin out "results.txt",
        FileData.textFile (String.intercalate "\n" (tx.take (ns * nr)))),
       (pathJoin out "results_len.txt",
        FileData.textFile (String.intercalate "\n" ((ln.take (ns * nr)).map toString)))] := by
  show [(pathJoin out "results.npy",
          FileData.npyDict (mo.take (ns * nr)) (tx.take (ns * nr)) (ln.take (ns * nr)) ns nr),
        (pyReplace (pathJoin out "results.npy") ".npy" ".txt",
          FileData.textFile (String.intercalate "\n" (tx.take (ns * nr)))),
        (pyReplace (pathJoin out "results.npy") ".npy" "_len.txt",
          FileData.textFile (String.intercalate "\n" ((ln.take (ns * nr)).map toString)))] = _
  rw [savePath_txt out h, savePath_len out h]

/-- Closed witness for C5 at `out = "save/humanml/edit"`, two texts, two
lengths, one motion, `ns = nr = 1`. -/
theorem c5_three_result_files_witness :
    saveResults "save/humanml/edit" [(7 : Nat)] ["a walk", "b"] [60, 55] 1 1 =
      [("save/humanml/edit/results.npy",
        FileData.npyDict [(7 : Nat)] ["a walk"] [60] 1 1),
       ("save/humanml/edit/results.txt", FileData.textFile "a walk"),
       ("save/humanml/edit/results_len.txt", FileData.textFile "60")] := by
  rw [c5_three_result_files Nat "save/humanml/edit" [(7 : Nat)] ["a walk", "b"]
    [60, 55] 1 1 (by decide)]
  rfl

/-! ### Output-directory preparation and the write frame (lines 161-173) -/

/-- A flat model of the filesystem: the set of existing file paths and
the set of existing directory paths. -/
structure FileSys where
  files : List String
  dirs : List String

/-- Is `p` the path `dir` itself or a path inside the directory `dir`? -/
def isUnder (dir p : String) : Bool :=
  (dir ++ "/").data.isPrefixOf p.data || p == dir

/-- Lines 161-163: `if os.path.exists(out_path): shutil.rmtree(out_path)`
followed by `os.makedirs(out_path)` — recursively delete the output tree
when it exists, then create the directory. -/
def prepOutDir (fs : FileSys) (out : String) : FileSys :=
  let fs1 := if fs.dirs.contains out || fs.files.contains out then
      { files := fs.files.filter (fun p => !(isUnder out p)),
        dirs := fs.dirs.filter (fun p => !(isUnder out p)) }
    else fs
  { files := fs1.files, dirs := out :: fs1.dirs }

/-- The save steps append their files to the filesystem. -/
def writeFiles (fs : FileSys) (paths : List String) : FileSys :=
  { fs with files := fs.files ++ paths }

lemma isUnder_pathJoin (out a : String) (ha : startsWithSlash a = false)
    (hout : out ≠ "") (hsl : endsWithSlash out = false) :
    isUnder out (pathJoin out a) = true := by
  rw [pathJoin_under out a ha hout hsl]
  have hdat : (out ++ "/" ++ a).data = (out ++ "/").data ++ a.data := strData_append _ _
  have hpre : (out ++ "/").data.isPrefixOf (out ++ "/" ++ a).data = true := by
    rw [List.isPrefixOf_iff_prefix, hdat]
    exact ⟨a.data, rfl⟩
  simp [isUnder, hpre]

/-- C10: before any output file is written, the resolved output
directory is recursively deleted if it exists and recreated, so
afterwards it exists and contains no file from a previous run; and the
save steps write only paths inside the output directory, appending
exactly those paths to the filesystem.  (The consistency hypothesis
`hcons` states that files under the output directory can only exist when
the directory itself exists.) -/
theorem c10_out_dir_prepared (fs : FileSys) (μ : Type) (out : String)
    (mo : List μ) (tx : List String) (ln : List Nat) (ns nr : Nat)
    (hout : out ≠ "") (hsl : endsWithSlash out = false)
    (hstem : hasSub npyChars (pathJoin out "results").data = false)
    (hcons : ∀ p ∈ fs.files, isUnder out p = true →
      (fs.dirs.contains out || fs.files.contains out) = true) :
    out ∈ (prepOutDir fs out).dirs ∧
    (∀ p ∈ (prepOutDir fs out).files, isUnder out p = false) ∧
    (∀ p ∈ (saveResults out mo tx ln ns nr).map Prod.fst, isUnder out p = true) ∧
    (writeFiles (prepOutDir fs out) ((saveResults out mo tx ln ns nr).map Prod.fst)).files
      = (prepOutDir fs out).files ++ (saveResults out mo tx ln ns nr).map Prod.fst := by
  have hlist : (saveResults out mo tx ln ns nr).map Prod.fst
      = [pathJoin out "results.npy", pathJoin out "results.txt",
         pathJoin out "results_len.txt"] := by
    show [pathJoin out "results.npy",
          pyReplace (pathJoin out "results.npy") ".npy" ".txt",
          pyReplace (pathJoin out "results.npy") ".npy" "_len.txt"] = _
    rw [savePath_txt out hstem, savePath_len out hstem]
  refine ⟨List.mem_cons_self out _, ?_, ?_, rfl⟩
  · intro p hp
    by_cases hex : (fs.dirs.contains out || fs.files.contains out) = true
    · have hex2 : out ∈ fs.dirs ∨ out ∈ fs.files := by simpa using hex
      have hred : (prepOutDir fs out).files
          = fs.files.filter (fun p => !(isUnder out p)) := by
        simp [prepOutDir, hex2]
      rw [hred] at hp
      have hmem := (List.mem_filter.mp hp).2
      simpa using hmem
    · have hex2 : ¬ (out ∈ fs.dirs ∨ out ∈ fs.files) := by simpa using hex
      have hred : (prepOutDir fs out).files = fs.files := by
        simp [prepOutDir, hex2]
      rw [hred] at hp
      by_contra hno
      rw [Bool.not_eq_false] at hno
      exact hex (hcons p hp hno)
  · intro p hp
    rw [hlist] at hp
    simp only [List.mem_cons, List.not_mem_nil, or_false] at hp
    rcases hp with rfl | rfl | rfl
    · exact isUnder_pathJoin out "results.npy" (by decide) hout hsl
    · exact isUnder_pathJoin out "results.txt" (by decide) hout hsl
    · exact isUnder_pathJoin out "results_len.txt" (by decide) hout hsl

/-- Closed witness for C10: the filesystem already contains the output
directory `out` and a stale file `out/old.txt` inside it. -/
theorem c10_out_dir_prepared_witness :
    "out" ∈ (prepOutDir ⟨["out/old.txt"], ["out"]⟩ "out").dirs ∧
    (∀ p ∈ (prepOutDir ⟨["out/old.txt"], ["out"]⟩ "out").files,
      isUnder "out" p = false) ∧
    (∀ p ∈ (saveResults "out" [(0 : Nat)] ["t"] [5] 1 1).map Prod.fst,
      isUnder "out" p = true) ∧
    (writeFiles (prepOutDir ⟨["out/old.txt"], ["out"]⟩ "out")
        ((saveResults "out" [(0 : Nat)] ["t"] [5] 1 1).map Prod.fst)).files
      = (prepOutDir ⟨["out/old.txt"], ["out"]⟩ "out").files
        ++ (saveResults "out" [(0 : Nat)] ["t"] [5] 1 1).map Prod.fst :=
  c10_out_dir_prepared ⟨["out/old.txt"], ["out"]⟩ Nat "out" [0] ["t"] [5] 1 1
    (by decide) (by decide) (by decide) (by decide)

/-! ### The visualization loop (lines 190-227) -/

/-- `'input_motion{:02d}.mp4'.format(sample_i)`. -/
def inputMotionFile (i : Nat) : String := "input_motion" ++ fmt2 i ++ ".mp4"

/-- `'sample{:02d}_rep{:02d}.mp4'.format(sample_i, rep_i)`. -/
def sampleRepFile (i r : Nat) : String :=
  "sample" ++ fmt2 i ++ "_rep" ++ fmt2 r ++ ".mp4"

/-- `'sample{:02d}.mp4'.format(sample_i)`. -/
def sampleAllFile (i : Nat) : String := "sample" ++ fmt2 i ++ ".mp4"

/-- The `rep_files` list accumulated for sample `i`: the input-motion
path first, then one repetition path per repetition. -/
def repFilesOf (out : String) (nr i : Nat) : List String :=
  pathJoin out (inputMotionFile i)
    :: (List.range nr).map (fun r => pathJoin out (sampleRepFile i r))

/-- The shell command built on lines 222-225:
`'ffmpeg -y -loglevel warning ' + ''.join(ffmpeg_rep_files) + hstack_args + ' ' + all_rep_save_file`. -/
def ffmpegCmdOf (out : String) (nr i : Nat) : String :=
  "ffmpeg -y -loglevel warning "
  ++ String.join ((repFilesOf out nr i).map (fun f => " -i " ++ f ++ " "))
  ++ " -filter_complex hstack=inputs=" ++ toString (nr + 1)
  ++ " " ++ pathJoin out (sampleAllFile i)

/-- External side effects of the visualization loop: a `plot_3d_motion`
call rendering a file, or an `os.system` shell command. -/
inductive VisEvent where
  | plotCall (path : String) : VisEvent
  | shellCall (cmd : String) : VisEvent

/-- Is the event an `os.system` invocation? -/
def isShell : VisEvent → Bool
  | .shellCall _ => true
  | .plotCall _ => false

/-- The paths rendered by `plot_3d_motion` calls in an event list. -/
def plotPaths (evs : List VisEvent) : List String :=
  evs.filterMap (fun e => match e with
    | .plotCall p => some p
    | .shellCall _ => none)

/-- The events of one iteration of the outer loop (lines 190-226): the
input-motion plot call is commented out in the source, so the iteration
renders one file per repetition and then runs a single `os.system`
command. -/
def sampleEvents (out : String) (nr i : Nat) : List VisEvent :=
  ((List.range nr).map (fun r => VisEvent.plotCall (pathJoin out (sampleRepFile i r))))
  ++ [VisEvent.shellCall (ffmpegCmdOf out nr i)]

/-- The events of the whole visualization loop over
`range(args.num_samples)`. -/
def visEvents (out : String) (ns nr : Nat) : List VisEvent :=
  (List.range ns).flatMap (fun i => sampleEvents out nr i)

lemma filter_isShell_plots (f : Nat → String) :
    ∀ l : List Nat,
      ((l.map (fun r => VisEvent.plotCall (f r))).filter isShell) = [] := by
  intro l
  induction l with
  | nil => rfl
  | cons a l ih => simpa [isShell] using ih

lemma sampleEvents_filter (out : String) (nr i : Nat) :
    (sampleEvents out nr i).filter isShell
      = [VisEvent.shellCall (ffmpegCmdOf out nr i)] := by
  unfold sampleEvents
  rw [List.filter_append, filter_isShell_plots]
  rfl

lemma visEvents_filter_length (out : String) (ns nr : Nat) :
    ((visEvents out ns nr).filter isShell).length = ns := by
  unfold visEvents
  have hgen : ∀ l : List Nat,
      ((l.flatMap (fun i => sampleEvents out nr i)).filter isShell).length = l.length := by
    intro l
    induction l with
    | nil => rfl
    | cons a l ih =>
      rw [List.flatMap_cons, List.filter_append, List.length_append,
        sampleEvents_filter, ih]
      simp [Nat.add_comm]
  rw [hgen, List.length_range]

lemma pathJoin_inj_snd (out a b : String)
    (ha : startsWithSlash a = false) (hb : startsWithSlash b = false)
    (h : pathJoin out a = pathJoin out b) : a = b := by
  by_cases hc : out = "" ∨ endsWithSlash out = true
  · simp only [pathJoin, ha, hb, Bool.false_eq_true, if_false, if_pos hc] at h
    exact strAppend_cancel_left h
  · simp only [pathJoin, ha, hb, Bool.false_eq_true, if_false, if_neg hc] at h
    exact strAppend_cancel_left h

lemma inputMotionFile_head (i : Nat) : (inputMotionFile i).data.head? = some 'i' := by
  show ("input_motion" ++ fmt2 i ++ ".mp4").data.head? = some 'i'
  rw [strData_append, strData_append]
  rfl

lemma sampleRepFile_head (i r : Nat) : (sampleRepFile i r).data.head? = some 's' := by
  show ("sample" ++ fmt2 i ++ "_rep" ++ fmt2 r ++ ".mp4").data.head? = some 's'
  rw [strData_append, strData_append, strData_append, strData_append]
  rfl

lemma inputMotionFile_noSlash (i : Nat) : startsWithSlash (inputMotionFile i) = false := by
  unfold startsWithSlash
  rw [inputMotionFile_head]
  rfl

lemma sampleRepFile_noSlash (i r : Nat) : startsWithSlash (sampleRepFile i r) = false := by
  unfold startsWithSlash
  rw [sampleRepFile_head]
  rfl

lemma input_ne_sampleRep (i i' r : Nat) : inputMotionFile i ≠ sampleRepFile i' r := by
  intro h
  have h1 := inputMotionFile_head i
  rw [h, sampleRepFile_head] at h1
  exact absurd h1 (by decide)

/-- C8: every iteration of the visualization loop executes exactly one
shell command via `os.system` (and the whole loop exactly
`num_samples` of them), namely the ffmpeg invocation that hstacks the
`num_repetitions + 1` files of `rep_files` into `sample{i:02d}.mp4`; the
first listed input is `input_motion{i:02d}.mp4`, a path that no
`plot_3d_motion` call of the loop ever renders, the input-motion plot
being commented out. -/
theorem c8_one_shell_command_per_sample (out : String) (ns nr i : Nat) (hi : i < ns) :
    (sampleEvents out nr i).filter isShell
      = [VisEvent.shellCall (ffmpegCmdOf out nr i)] ∧
    ((visEvents out ns nr).filter isShell).length = ns ∧
    (repFilesOf out nr i).length = nr + 1 ∧
    (repFilesOf out nr i).head? = some (pathJoin out (inputMotionFile i)) ∧
    pathJoin out (inputMotionFile i) ∉ plotPaths (visEvents out ns nr) := by
  refine ⟨sampleEvents_filter out nr i, visEvents_filter_length out ns nr, ?_, rfl, ?_⟩
  · show ((List.range nr).map (fun r => pathJoin out (sampleRepFile i r))).length + 1 = nr + 1
    rw [List.length_map, List.length_range]
  · intro hmem
    rw [plotPaths, List.mem_filterMap] at hmem
    obtain ⟨e, he, hsome⟩ := hmem
    rw [visEvents, List.mem_flatMap] at he
    obtain ⟨i', _, he'⟩ := he
    rw [sampleEvents, List.mem_append] at he'
    rcases he' with he' | he'
    · rw [List.mem_map] at he'
      obtain ⟨r, _, rfl⟩ := he'
      simp only [Option.some.injEq] at hsome
      have := pathJoin_inj_snd out (sampleRepFile i' r) (inputMotionFile i)
        (sampleRepFile_noSlash i' r) (inputMotionFile_noSlash i) hsome
      exact input_ne_sampleRep i i' r this.symm
    · rw [List.mem_singleton] at he'
      subst he'
      simp at hsome

/-- Closed witness for C8 at `out = "out"`, one sample, two repetitions. -/
theorem c8_one_shell_command_per_sample_witness :
    (sampleEvents "out" 2 0).filter isShell
      = [VisEvent.shellCall (ffmpegCmdOf "out" 2 0)] ∧
    ((visEvents "out" 1 2).filter isShell).length = 1 ∧
    (repFilesOf "out" 2 0).length = 2 + 1 ∧
    (repFilesOf "out" 2 0).head? = some (pathJoin "out" (inputMotionFile 0)) ∧
    pathJoin "out" (inputMotionFile 0) ∉ plotPaths (visEvents "out" 1 2) :=
  c8_one_shell_command_per_sample "out" 1 2 0 (by decide)

-- Concrete evaluations of the string and path helpers against the
-- behaviour of the corresponding Python operations.
example : pyReplace "model000500000.pt" "model" "" = "000500000.pt" := by decide
example : outPathOf "" "save/humanml/model000500000.pt" "in_between" 10 "" =
    "save/humanml/edit_humanml_000500000_in_between_seed10" := by decide
example : outPathOf "res" "save/humanml/model000500000.pt" "upper_body" 1 "a walk." =
    "res/edit_humanml_000500000_upper_body_seed1_a_walk" := by decide
example : pyReplace "000500000.pt" ".pt" "" = "000500000" := by decide
example : pyBasename "save/humanml/model000500000.pt" = "model000500000.pt" := by decide
example : pyDirname "save/humanml/model000500000.pt" = "save/humanml" := by decide
example : pyDirname "/a" = "/" := by decide
example : pyDirname "abc" = "" := by decide
example : pathJoin "save/humanml" "edit_x" = "save/humanml/edit_x" := by decide
example : pathJoin "" "edit_x" = "edit_x" := by decide
example : fmt2 3 = "03" := by decide
example : fmt2 12 = "12" := by decide
example : hasSub ['.', 'n'] "a.npy".data = true := by decide
example : pyReplace "out/results.npy" ".npy" "_len.txt" = "out/results_len.txt" := by decide
